import Mathlib

/-!
Shallow embedding of the watchproc terminal process monitor
(main_watchproc.go) and proofs about its layout engine, snapshot
pipeline, rendering helpers and session state machine.

Conventions used throughout:
* Go `int` values are modelled as `Int`, `uint64` as `Nat`.
* Go floating-point values (`float64`, `float32`) are modelled as `Rat`;
  all comparisons performed by the program on them are order comparisons,
  which agree with the rational order on the exactly-representable values
  the proofs use.
* Fallible calls (`p.Name()`, `p.CPUPercent()`, ...) are modelled as
  `Option`/`Except` values supplied as inputs.
* `time.Time` values are modelled by their `UnixMilli` instant as an
  `Option Int`, `none` standing for Go's zero `time.Time`.
-/

namespace Watchproc

/-! ## Layout engine: `calcColWidths` -/

/-- Layout of the dynamic columns; mirrors the Go struct `colWidths`
with fields `name`, `created`, `user`, `total` (all Go `int`). -/
structure colWidths where
  name : Int
  created : Int
  user : Int
  total : Int
deriving DecidableEq

/-- Embedding of `calcColWidths` (main_watchproc.go:48-81).
The fixed overhead is 59 columns and the minimum variable widths are
12 (name), 10 (created) and 8 (user); widths below the floor are clamped
up to it.  The sequential `let`s mirror the Go local-variable updates. -/
def calcColWidths (termCols : Int) : colWidths :=
  let t := if termCols < 59 + 12 + 10 + 8 then 59 + 12 + 10 + 8 else termCols
  let remaining := t - 59
  let nameW0 := remaining * 45 / 100
  let nameW1 := if nameW0 > 30 then 30 else nameW0
  let nameW := if nameW1 < 12 then 12 else nameW1
  let createdW0 := remaining * 30 / 100
  let createdW1 := if createdW0 > 20 then 20 else createdW0
  let createdW := if createdW1 < 10 then 10 else createdW1
  let userW0 := remaining - nameW - createdW
  let userW := if userW0 < 8 then 8 else userW0
  ⟨nameW, createdW, userW, t⟩

/-! ## Elapsed-time formatting: `formatElapsed`, `formatElapsedShort`

Go truncates the duration to whole seconds first; we take the duration
directly in seconds (`Nat`), so `int(d.Hours()) = secs / 3600`,
`int(d.Minutes()) % 60 = secs / 60 % 60`, `int(d.Seconds()) % 60 = secs % 60`. -/

/-- Rendering of the Go format verb `%02d` for the small nonnegative
values fed to it here. -/
def pad2 (n : Nat) : String :=
  if n < 10 then "0" ++ toString n else toString n

/-- Embedding of `formatElapsed` (main_watchproc.go:84-96). -/
def formatElapsed (secs : Nat) : String :=
  let h := secs / 3600
  let m := secs / 60 % 60
  let s := secs % 60
  if h > 0 then toString h ++ "h" ++ pad2 m ++ "m" ++ pad2 s ++ "s"
  else if m > 0 then toString m ++ "m" ++ pad2 s ++ "s"
  else toString s ++ "s"

/-- Embedding of `formatElapsedShort` (main_watchproc.go:98-110). -/
def formatElapsedShort (secs : Nat) : String :=
  let h := secs / 3600
  let m := secs / 60 % 60
  if h > 0 then toString h ++ "h" ++ pad2 m ++ "m"
  else if m > 0 then toString m ++ "m" ++ pad2 (secs % 60) ++ "s"
  else toString (secs % 60) ++ "s"

/-! ## Process records -/

/-- Embedding of the Go struct `ProcessInfo` (main_watchproc.go:113-123).
`CreateTime : Option Int` holds the `UnixMilli` instant, `none` being the
zero `time.Time` left by a failed `CreateTime()` call. -/
structure ProcessInfo where
  PID : Int
  Name : String
  CreateTime : Option Int
  CPUPercent : Rat
  MemPercent : Rat
  MemRSS : Nat
  Status : String
  Username : String
  CmdLine : String
deriving DecidableEq

/-- Model of one `gopsutil` process handle: the pid plus the outcome of
each fallible accessor used by `getProcesses` (`none` = the accessor
returned an error; for `MemoryInfo` also the `nil`-result case). -/
structure RawProc where
  pid : Int
  name : Option String
  createTime : Option Int
  cpuPercent : Option Rat
  memRSS : Option Nat
  memPercent : Option Rat
  username : Option String
  cmdline : Option String
deriving DecidableEq

/-- ASCII lowercasing of a string, modelling `strings.ToLower` on the
ASCII process names the program compares (`Char.toLower` lowers exactly
the ASCII uppercase letters). -/
def lowerStr (s : String) : String :=
  String.mk (s.data.map Char.toLower)

/-- Substring test on character lists, modelling `strings.Contains`
(an empty needle is contained in every string). -/
def containsSub (needle : List Char) : List Char → Bool
  | [] => needle.isEmpty
  | a :: t => needle.isPrefixOf (a :: t) || containsSub needle t

/-- Name filter of `getProcesses` (main_watchproc.go:142-153): an empty
pattern matches everything; otherwise the lowercased name must equal
(exact match) or contain (partial match) the lowercased pattern. -/
def nameMatches (pattern : String) (exactMatch : Bool) (name : String) : Bool :=
  if pattern = "" then true
  else
    let nameLower := lowerStr name
    let patternLower := lowerStr pattern
    if exactMatch then nameLower = patternLower
    else containsSub patternLower.data nameLower.data

/-- Rational value of the Go literal `0.1` used for the active/idle
status threshold (built by the explicit constructor so that concrete
comparisons against it reduce in the kernel). -/
def statusThreshold : Rat := ⟨1, 10, by norm_num, Nat.coprime_one_left 10⟩

/-- Per-process body of the `getProcesses` loop
(main_watchproc.go:135-196): a process whose `Name()` fails is skipped
(`none`), a process failing the name filter is skipped, and otherwise a
`ProcessInfo` is built in which every field whose accessor failed keeps
its Go zero value (zero time, 0, 0, 0, "", ""). -/
def buildInfo (pattern : String) (exactMatch : Bool) (p : RawProc) : Option ProcessInfo :=
  match p.name with
  | none => none
  | some name =>
    if nameMatches pattern exactMatch name then
      some
        { PID := p.pid
          Name := name
          CreateTime := p.createTime
          CPUPercent := p.cpuPercent.getD 0
          MemPercent := p.memPercent.getD 0
          MemRSS := p.memRSS.getD 0
          Status := if p.cpuPercent.getD 0 > statusThreshold then "active" else "idle"
          Username := p.username.getD ""
          CmdLine := p.cmdline.getD "" }
    else none

/-- Embedding of `getProcesses` (main_watchproc.go:126-199).  The result
of `process.Processes()` is supplied as the `Except` argument; it is the
only failure source, every per-process error being handled inside
`buildInfo`. -/
def getProcesses (procsRes : Except String (List RawProc))
    (pattern : String) (exactMatch : Bool) : Except String (List ProcessInfo) :=
  match procsRes with
  | .error e => .error e
  | .ok procs => .ok (procs.filterMap (buildInfo pattern exactMatch))

/-! ## Sorting: `sortProcesses` -/

/-- UnixMilli instant of Go's zero `time.Time` (January 1, year 1 UTC);
`time.Time.Before` on our `Option Int` model compares these instants. -/
def goZeroTimeMilli : Int := -62135596800000

/-- Instant used in `CreateTime.Before` comparisons. -/
def timeKey (t : Option Int) : Int := t.getD goZeroTimeMilli

/-- Base comparator of `sortProcesses` (main_watchproc.go:205-218):
the `switch` on the sort key, whose `default` case coincides with the
`"cpu"` case. -/
def procLess (sortBy : String) (a b : ProcessInfo) : Bool :=
  if sortBy = "cpu" then decide (a.CPUPercent < b.CPUPercent)
  else if sortBy = "mem" then decide (a.MemPercent < b.MemPercent)
  else if sortBy = "pid" then decide (a.PID < b.PID)
  else if sortBy = "name" then decide (lowerStr a.Name < lowerStr b.Name)
  else if sortBy = "time" then decide (timeKey a.CreateTime < timeKey b.CreateTime)
  else decide (a.CPUPercent < b.CPUPercent)

/-- Total ordering predicate induced by `sort.Slice` with the code's
comparator (main_watchproc.go:202-224).  `sort.Slice(l, less)` arranges
the slice so that `x` may precede `y` only when `¬ less(y, x)`; the code
passes `procLess` for ascending order and its negation for descending
order (`if desc { return !less }`), so the induced ordering predicate is
`¬ procLess(b, a)` ascending and `¬ procLess(a, b)` descending.  Go's
unstable sort determines the output only up to comparator ties; the
insertion-sort model below picks one admissible outcome and agrees with
the Go program exactly on tie-free data. -/
def sortLe (sortBy : String) (desc : Bool) (a b : ProcessInfo) : Bool :=
  if desc then !(procLess sortBy a b) else !(procLess sortBy b a)

/-- Insertion of an element into a list, keeping `le`-sortedness. -/
def insertLe {α : Type} (le : α → α → Bool) (a : α) : List α → List α
  | [] => [a]
  | b :: t => if le a b then a :: b :: t else b :: insertLe le a t

/-- Insertion sort used as the executable model of `sort.Slice`. -/
def sortModel {α : Type} (le : α → α → Bool) : List α → List α
  | [] => []
  | a :: t => insertLe le a (sortModel le t)

/-- Embedding of `sortProcesses` (main_watchproc.go:202-224). -/
def sortProcesses (sortBy : String) (desc : Bool) (procs : List ProcessInfo) :
    List ProcessInfo :=
  sortModel (sortLe sortBy desc) procs

/-- Strict "a comes before b" order in direction `desc` for a sort key:
the code's base comparator read in the configured direction.  A list
that is `Pairwise` strict is both tie-free and already in the order the
direction-`desc` sort produces. -/
def strictBefore (sortBy : String) (desc : Bool) (a b : ProcessInfo) : Bool :=
  if desc then procLess sortBy b a else procLess sortBy a b

/-! ## Top-N truncation (display, main_watchproc.go:379-381) -/

/-- Embedding of the truncation step `if *topN > 0 && len(procs) > *topN
{ procs = procs[:*topN] }` in `display`. -/
def truncateTopN (topN : Int) (procs : List ProcessInfo) : List ProcessInfo :=
  if 0 < topN ∧ topN < (procs.length : Int) then procs.take topN.toNat else procs

/-! ## Byte formatting: `formatBytes` -/

/-- Rounding of the fraction `num / den` (`den ≠ 0`) to the nearest
integer with ties to even: the rounding `strconv` applies when Go
formats a float with `%.1f`.  For every concrete value the proofs
evaluate, `float64(bytes)/float64(unit)` is exact, so the rational
rounding coincides with Go's. -/
def roundHalfEven (num den : Nat) : Nat :=
  let q := num / den
  let r := num % den
  if 2 * r < den then q
  else if den < 2 * r then q + 1
  else if q % 2 = 0 then q else q + 1

/-- Rendering of `fmt.Sprintf("%.1f", bytes/unit)` for nonnegative
values: one decimal digit, rounded half to even. -/
def fmt1 (bytes unit : Nat) : String :=
  let t := roundHalfEven (bytes * 10) unit
  toString (t / 10) ++ "." ++ toString (t % 10)

/-- Embedding of `formatBytes` (main_watchproc.go:227-243): `KB = 1024`,
`MB = KB * 1024`, `GB = MB * 1024`, largest matching unit first, plain
`%dB` below 1K. -/
def formatBytes (bytes : Nat) : String :=
  if bytes ≥ 1073741824 then fmt1 bytes 1073741824 ++ "G"
  else if bytes ≥ 1048576 then fmt1 bytes 1048576 ++ "M"
  else if bytes ≥ 1024 then fmt1 bytes 1024 ++ "K"
  else toString bytes ++ "B"

/-- Byte value of a unit suffix. -/
def unitValue (u : String) : Nat :=
  if u = "G" then 1073741824 else if u = "M" then 1048576
  else if u = "K" then 1024 else 1

/-- Modelled from the spec: the largest unit among B/K/M/G (powers of
1024) in which the byte count is at least 1 (`B` when no larger unit
fits, in particular for 0). -/
def specLargestUnit (bytes : Nat) : String :=
  if 1073741824 ≤ bytes then "G"
  else if 1048576 ≤ bytes then "M"
  else if 1024 ≤ bytes then "K"
  else "B"

/-- Modelled from the spec: render the byte count in the given unit,
K/M/G values to one decimal place, B values as a bare integer. -/
def specByteRender (bytes : Nat) : String :=
  let u := specLargestUnit bytes
  if u = "B" then toString bytes ++ "B" else fmt1 bytes (unitValue u) ++ u

/-! ## Title line: `printHeader` (main_watchproc.go:278-314)

The five title variants, each given as the plain text of the
corresponding `fmt.Sprintf` (the printed strings add only SGR colour
codes around the same characters; the width checks in the source use the
plain text).  The `%.1f` rendering of the configured interval is passed
in as a string, since the selection logic treats it opaquely. -/

/-- Pattern shown in the title: `*` for the empty pattern. -/
def patDisplayOf (pattern : String) : String :=
  if pattern = "" then "*" else pattern

/-- Full title sentence. -/
def headerFull (elapsed patD intervalStr : String) (count : Nat) : String :=
  "WatchProc [" ++ elapsed ++ "] | Pattern: " ++ patD ++ " | Interval: " ++
    intervalStr ++ "s | Found: " ++ toString count ++ " processes"

/-- Title without the trailing "processes" noun. -/
def headerNoNoun (elapsed patD intervalStr : String) (count : Nat) : String :=
  "WatchProc [" ++ elapsed ++ "] | Pattern: " ++ patD ++ " | Interval: " ++
    intervalStr ++ "s | Found: " ++ toString count

/-- Title without the interval clause. -/
def headerNoInterval (elapsed patD : String) (count : Nat) : String :=
  "WatchProc [" ++ elapsed ++ "] | Pattern: " ++ patD ++ " | Found: " ++ toString count

/-- Abbreviated title (short elapsed form, `P:` for `Pattern:`). -/
def headerAbbrev (elapsedShort patD : String) (count : Nat) : String :=
  "WatchProc [" ++ elapsedShort ++ "] | P:" ++ patD ++ " | Found: " ++ toString count

/-- Minimal count-only title. -/
def headerMinimal (count : Nat) : String :=
  "WatchProc | " ++ toString count

/-- Width test used by `printHeader`: Go's `len` is the byte length. -/
def fitsWidth (s : String) (w : Int) : Bool :=
  decide ((s.utf8ByteSize : Int) ≤ w)

/-- Variant selection of `printHeader` (main_watchproc.go:287-311):
index 0..3 of the most detailed variant whose plain text fits the total
width, or 4 for the minimal variant printed unconditionally. -/
def headerChoice (elapsedSecs : Nat) (pattern intervalStr : String)
    (count : Nat) (w : Int) : Nat :=
  let e := formatElapsed elapsedSecs
  let eShort := formatElapsedShort elapsedSecs
  let p := patDisplayOf pattern
  if fitsWidth (headerFull e p intervalStr count) w then 0
  else if fitsWidth (headerNoNoun e p intervalStr count) w then 1
  else if fitsWidth (headerNoInterval e p count) w then 2
  else if fitsWidth (headerAbbrev eShort p count) w then 3
  else 4

/-- Plain text printed for a given variant index. -/
def headerText (elapsedSecs : Nat) (pattern intervalStr : String)
    (count : Nat) : Nat → String
  | 0 => headerFull (formatElapsed elapsedSecs) (patDisplayOf pattern) intervalStr count
  | 1 => headerNoNoun (formatElapsed elapsedSecs) (patDisplayOf pattern) intervalStr count
  | 2 => headerNoInterval (formatElapsed elapsedSecs) (patDisplayOf pattern) count
  | 3 => headerAbbrev (formatElapsedShort elapsedSecs) (patDisplayOf pattern) count
  | _ => headerMinimal count

/-- Modelled from the spec: the four degradation variants in decreasing
detail order (the minimal variant is the fallback). -/
def headerVariants (elapsedSecs : Nat) (pattern intervalStr : String)
    (count : Nat) : List String :=
  [headerFull (formatElapsed elapsedSecs) (patDisplayOf pattern) intervalStr count,
   headerNoNoun (formatElapsed elapsedSecs) (patDisplayOf pattern) intervalStr count,
   headerNoInterval (formatElapsed elapsedSecs) (patDisplayOf pattern) count,
   headerAbbrev (formatElapsedShort elapsedSecs) (patDisplayOf pattern) count]

/-- Modelled from the spec: index of the first (most detailed) variant
fitting the width; `List.findIdx` returns the list length 4 — the
minimal fallback — when none fits. -/
def specHeaderChoice (elapsedSecs : Nat) (pattern intervalStr : String)
    (count : Nat) (w : Int) : Nat :=
  (headerVariants elapsedSecs pattern intervalStr count).findIdx (fun s => fitsWidth s w)

/-! ## Render cycle and refresh loop: `display` (main_watchproc.go:365-416)
and the ticker loop (main_watchproc.go:530-534) -/

/-- Configuration fixed at startup (the relevant command-line flags). -/
structure Config where
  pattern : String
  exactMatch : Bool
  sortKey : String
  desc : Bool
  topN : Int
deriving DecidableEq

/-- Shared display state touched by a render cycle: the last published
snapshot `lastProcs`. -/
structure DState where
  lastProcs : List ProcessInfo
deriving DecidableEq

/-- Observable outcome of one `display` call: either the inline error
line printed when the metric-source read fails, or a rendered frame
showing the newly published snapshot. -/
inductive RenderOut where
  | errorLine (msg : String)
  | frame (procs : List ProcessInfo)
deriving DecidableEq

/-- Embedding of one `display` cycle (main_watchproc.go:365-416) at the
snapshot level: on a read error it prints `Error: ...` and returns
leaving the state untouched; on success it sorts, truncates to top-N,
publishes the snapshot to `lastProcs` and renders it.  The read result
of `process.Processes()` is supplied as an argument. -/
def displayStep (cfg : Config) (readRes : Except String (List RawProc))
    (st : DState) : DState × RenderOut :=
  match getProcesses readRes cfg.pattern cfg.exactMatch with
  | .error e => (st, .errorLine ("Error: " ++ e))
  | .ok procs =>
    let sorted := sortProcesses cfg.sortKey cfg.desc procs
    let final := truncateTopN cfg.topN sorted
    (⟨final⟩, .frame final)

/-- Embedding of the periodic ticker loop (main_watchproc.go:530-534):
each tick runs one `display` cycle; the outcome of one cycle never stops
the iteration over the remaining ticks. -/
def runTicks (cfg : Config) (reads : List (Except String (List RawProc)))
    (st : DState) : DState :=
  reads.foldl (fun s r => (displayStep cfg r s).1) st

/-! ## Session state machine (main_watchproc.go:430-445 and 488-521)

The pause flag is the atomic `paused` int32, the termination latch is
`exitOnce`, and `teardowns` counts executions of the `exitOnce.Do` body
in `handleExit`.  `os.Exit(0)` at the end of the teardown stops the
process, so every event arriving after a completed teardown has no
effect: the step function freezes the state once `exited` is set. -/

/-- Session-relevant events: the pause/resume keys (`p`, `P`, space),
the quit keys (`q`, `Q`, Ctrl+C byte 3) and a termination signal. -/
inductive SEvent where
  | pauseKey
  | quitKey
  | sigTerm
deriving DecidableEq

/-- Session state: the pause flag, the one-shot exit latch, and a spy
counter of teardown executions. -/
structure SessionState where
  paused : Bool
  exited : Bool
  teardowns : Nat
deriving DecidableEq

/-- One step of the session state machine.  A pause key toggles the
pause flag (the CAS 0→1 pauses, otherwise the store 0 resumes); a quit
key or signal runs `handleExit`, whose `exitOnce.Do` body executes only
if the latch is untouched. -/
def stepSession (e : SEvent) (s : SessionState) : SessionState :=
  if s.exited then s
  else
    match e with
    | .pauseKey => { s with paused := !s.paused }
    | .quitKey => { s with exited := true, teardowns := s.teardowns + 1 }
    | .sigTerm => { s with exited := true, teardowns := s.teardowns + 1 }

/-- Initial session state: running, latch untouched. -/
def initSession : SessionState := ⟨false, false, 0⟩

/-- Result of feeding a sequence of events to the session machine. -/
def runSession (evs : List SEvent) : SessionState :=
  evs.foldl (fun s e => stepSession e s) initSession

/-- State predicate: the session is live and rendering. -/
def Running (s : SessionState) : Prop := s.exited = false ∧ s.paused = false

/-- State predicate: the session is live but paused. -/
def PausedState (s : SessionState) : Prop := s.exited = false ∧ s.paused = true

/-- State predicate: the termination latch has fired. -/
def Terminating (s : SessionState) : Prop := s.exited = true

/-! ## Concrete records used by witnesses and counterexamples -/

/-- Concrete record with CPU 1%. -/
def procA : ProcessInfo :=
  { PID := 101, Name := "alpha", CreateTime := some 1700000000000,
    CPUPercent := 1, MemPercent := 2, MemRSS := 1024,
    Status := "active", Username := "root", CmdLine := "alpha -x" }

/-- Concrete record with CPU 2%. -/
def procB : ProcessInfo :=
  { PID := 102, Name := "beta", CreateTime := some 1700000100000,
    CPUPercent := 2, MemPercent := 1, MemRSS := 2048,
    Status := "active", Username := "root", CmdLine := "beta" }

/-- Concrete record with CPU 3%. -/
def procC : ProcessInfo :=
  { PID := 103, Name := "gamma", CreateTime := none,
    CPUPercent := 3, MemPercent := 0, MemRSS := 0,
    Status := "idle", Username := "", CmdLine := "" }

/-- Concrete raw process whose name reads correctly but whose every
other accessor fails. -/
def rawNoFields : RawProc :=
  { pid := 7, name := some "svc", createTime := none, cpuPercent := none,
    memRSS := none, memPercent := none, username := none, cmdline := none }

/-- Concrete raw process whose name accessor fails. -/
def rawNoName : RawProc :=
  { pid := 8, name := none, createTime := some 1700000000000,
    cpuPercent := some 5, memRSS := some 4096, memPercent := some 1,
    username := some "root", cmdline := some "cmd" }

/-! ## Helper lemmas about the insertion-sort model -/

lemma insertLe_perm {α : Type} (le : α → α → Bool) (a : α) (t : List α) :
    (insertLe le a t).Perm (a :: t) := by
  induction t with
  | nil => simp [insertLe]
  | cons b bt ih =>
    simp only [insertLe]
    split_ifs with h
    · exact List.Perm.refl _
    · exact (ih.cons b).trans (List.Perm.swap a b bt)

lemma sortModel_perm {α : Type} (le : α → α → Bool) (l : List α) :
    (sortModel le l).Perm l := by
  induction l with
  | nil => simp [sortModel]
  | cons a t ih =>
    simpa [sortModel] using (insertLe_perm le a (sortModel le t)).trans (ih.cons a)

lemma insertLe_pairwise {α : Type} (le : α → α → Bool)
    (htot : ∀ x y, le x y = true ∨ le y x = true)
    (htr : ∀ x y z, le x y = true → le y z = true → le x z = true)
    (a : α) (t : List α) (ht : t.Pairwise (fun x y => le x y = true)) :
    (insertLe le a t).Pairwise (fun x y => le x y = true) := by
  induction t with
  | nil => simp [insertLe]
  | cons b bt ih =>
    rcases List.pairwise_cons.1 ht with ⟨hb, hbt⟩
    simp only [insertLe]
    split_ifs with h
    · refine List.pairwise_cons.2 ⟨?_, ht⟩
      intro x hx
      rcases List.mem_cons.1 hx with rfl | hx2
      · exact h
      · exact htr a b x h (hb x hx2)
    · refine List.pairwise_cons.2 ⟨?_, ih hbt⟩
      intro x hx
      have hx2 := (insertLe_perm le a bt).mem_iff.1 hx
      rcases List.mem_cons.1 hx2 with rfl | hx3
      · rcases htot x b with hab | hba
        · exact absurd hab h
        · exact hba
      · exact hb x hx3

lemma sortModel_pairwise {α : Type} (le : α → α → Bool)
    (htot : ∀ x y, le x y = true ∨ le y x = true)
    (htr : ∀ x y z, le x y = true → le y z = true → le x z = true)
    (l : List α) : (sortModel le l).Pairwise (fun x y => le x y = true) := by
  induction l with
  | nil => simp [sortModel]
  | cons a t ih => exact insertLe_pairwise le htot htr a (sortModel le t) ih

/-- Uniqueness of ordered permutations: a list that is strictly ordered
by `lt` equals any permutation of it that is ordered by `leP`, provided
`leP b a` and `lt a b` never hold together. -/
lemma perm_pairwise_eq {α : Type} {lt leP : α → α → Prop}
    (H : ∀ a b, leP b a → lt a b → False) :
    ∀ {l₁ l₂ : List α}, l₁.Perm l₂ → l₁.Pairwise lt → l₂.Pairwise leP → l₁ = l₂ := by
  intro l₁
  induction l₁ with
  | nil =>
    intro l₂ hp _ _
    exact (hp.symm.eq_nil).symm
  | cons a t ih =>
    intro l₂ hp hlt hle
    cases l₂ with
    | nil => exact absurd hp.eq_nil (by simp)
    | cons b t₂ =>
      by_cases hab : b = a
      · subst hab
        have ht : t.Perm t₂ := hp.cons_inv
        rw [ih ht (List.pairwise_cons.1 hlt).2 (List.pairwise_cons.1 hle).2]
      · have hbmem : b ∈ a :: t := hp.mem_iff.2 (List.mem_cons_self b t₂)
        have hbt : b ∈ t := by
          rcases List.mem_cons.1 hbmem with h1 | h1
          · exact absurd h1 hab
          · exact h1
        have hamem : a ∈ b :: t₂ := hp.mem_iff.1 (List.mem_cons_self a t)
        have hat : a ∈ t₂ := by
          rcases List.mem_cons.1 hamem with h1 | h1
          · exact absurd h1 (fun he => hab he.symm)
          · exact h1
        have h1 : lt a b := (List.pairwise_cons.1 hlt).1 b hbt
        have h2 : leP b a := (List.pairwise_cons.1 hle).1 a hat
        exact absurd h1 (fun hx => H a b h2 hx)

/-- The base comparator is asymmetric for every sort key. -/
lemma procLess_asymm (k : String) (a b : ProcessInfo) :
    procLess k a b = true → procLess k b a = true → False := by
  unfold procLess
  split_ifs <;> simp only [decide_eq_true_eq] <;> exact fun h1 h2 => lt_asymm h1 h2

/-- Failures of the base comparator compose (¬-transitivity). -/
lemma procLess_false_trans (k : String) (a b c : ProcessInfo) :
    procLess k b a = false → procLess k c b = false → procLess k c a = false := by
  unfold procLess
  split_ifs <;> simp only [decide_eq_false_iff_not, not_lt] <;>
    exact fun h1 h2 => le_trans h1 h2

lemma sortLe_false_eq (k : String) (a b : ProcessInfo) :
    sortLe k false a b = !(procLess k b a) := rfl

lemma sortLe_true_eq (k : String) (a b : ProcessInfo) :
    sortLe k true a b = !(procLess k a b) := rfl

lemma procLess_one_false (k : String) (a b : ProcessInfo) :
    procLess k a b = false ∨ procLess k b a = false := by
  rcases hx : procLess k a b with _ | _
  · exact Or.inl rfl
  · rcases hy : procLess k b a with _ | _
    · exact Or.inr rfl
    · exact (procLess_asymm k a b hx hy).elim

/-- The induced sort ordering is total. -/
lemma sortLe_total (k : String) (d : Bool) (a b : ProcessInfo) :
    sortLe k d a b = true ∨ sortLe k d b a = true := by
  cases d
  · simp only [sortLe_false_eq, Bool.not_eq_true']
    exact procLess_one_false k b a
  · simp only [sortLe_true_eq, Bool.not_eq_true']
    exact procLess_one_false k a b

/-- The induced sort ordering is transitive. -/
lemma sortLe_trans (k : String) (d : Bool) (a b c : ProcessInfo) :
    sortLe k d a b = true → sortLe k d b c = true → sortLe k d a c = true := by
  cases d <;> simp only [sortLe_false_eq, sortLe_true_eq, Bool.not_eq_true'] <;>
    intro h1 h2
  · exact procLess_false_trans k a b c h1 h2
  · exact procLess_false_trans k c b a h2 h1

/-! ## Session machine helper lemmas -/

lemma stepSession_exited_mono (e : SEvent) (s : SessionState) :
    s.exited = true → (stepSession e s).exited = true := by
  intro h; simp [stepSession, h]

lemma foldSession_exited_mono (evs : List SEvent) (s : SessionState) :
    s.exited = true → (evs.foldl (fun s e => stepSession e s) s).exited = true := by
  induction evs generalizing s with
  | nil => intro h; simpa using h
  | cons e rest ih => intro h; exact ih _ (stepSession_exited_mono e s h)

lemma stepSession_count_inv (e : SEvent) (s : SessionState)
    (h : s.teardowns = if s.exited then 1 else 0) :
    (stepSession e s).teardowns = if (stepSession e s).exited then 1 else 0 := by
  by_cases hx : s.exited <;> cases e <;> simp_all [stepSession]

lemma foldSession_count_inv (evs : List SEvent) (s : SessionState)
    (h : s.teardowns = if s.exited then 1 else 0) :
    (evs.foldl (fun s e => stepSession e s) s).teardowns =
      if (evs.foldl (fun s e => stepSession e s) s).exited then 1 else 0 := by
  induction evs generalizing s with
  | nil => simpa using h
  | cons e rest ih => exact ih _ (stepSession_count_inv e s h)

lemma foldSession_exited_of_mem (evs : List SEvent) (s : SessionState)
    (h : ∃ e ∈ evs, e = SEvent.quitKey ∨ e = SEvent.sigTerm) :
    (evs.foldl (fun s e => stepSession e s) s).exited = true := by
  induction evs generalizing s with
  | nil => simp at h
  | cons e rest ih =>
    rcases h with ⟨x, hx, hquit⟩
    rcases List.mem_cons.1 hx with rfl | hxr
    · have hex : (stepSession x s).exited = true := by
        by_cases hs : s.exited
        · exact stepSession_exited_mono x s hs
        · rcases hquit with rfl | rfl <;> simp [stepSession, hs]
      exact foldSession_exited_mono rest _ hex
    · exact ih _ ⟨x, hxr, hquit⟩

/-! ## Claim theorems -/

/-- Claim C1 (counterexample): at the documented floor `W = 89` itself
the Layout total is 89 but the widths sum to `13 + 10 + 8 + 59 = 90`:
the user column is clamped up from 7 to 8, so
`name + created + user + 59 ≠ total` exactly at the floor. -/
theorem calcColWidths_sum_breaks_at_floor :
    (calcColWidths 89).total = 89 ∧
    (calcColWidths 89).name + (calcColWidths 89).created +
      (calcColWidths 89).user + 59 ≠ (calcColWidths 89).total := by
  decide

/-- Claim C1 (amended): for every terminal width `W ≥ 90` — one above
the documented floor of 89, where the user-column clamp can no longer
fire — the Layout satisfies `name + created + user + 59 = total = W`,
with `name ∈ [12, 30]`, `created ∈ [10, 20]` and `user ≥ 8`. -/
theorem calcColWidths_invariant_from90 (W : Int) (hW : 90 ≤ W) :
    (calcColWidths W).total = W ∧
    (calcColWidths W).name + (calcColWidths W).created +
      (calcColWidths W).user + 59 = (calcColWidths W).total ∧
    12 ≤ (calcColWidths W).name ∧ (calcColWidths W).name ≤ 30 ∧
    10 ≤ (calcColWidths W).created ∧ (calcColWidths W).created ≤ 20 ∧
    8 ≤ (calcColWidths W).user := by
  simp only [calcColWidths]
  split_ifs <;> omega

/-- Claim C1 witness: the amended invariant evaluated at width 100. -/
theorem calcColWidths_invariant_from90_witness :
    (calcColWidths 100).total = 100 ∧
    (calcColWidths 100).name + (calcColWidths 100).created +
      (calcColWidths 100).user + 59 = (calcColWidths 100).total ∧
    12 ≤ (calcColWidths 100).name ∧ (calcColWidths 100).name ≤ 30 ∧
    10 ≤ (calcColWidths 100).created ∧ (calcColWidths 100).created ≤ 20 ∧
    8 ≤ (calcColWidths 100).user :=
  calcColWidths_invariant_from90 100 (by norm_num)

/-- Claim C8: every width below the floor of 89 — zero and negative
widths included — is clamped up to the floor: the layout is the fixed
`⟨13, 10, 8, 89⟩`, whose three variable widths are strictly positive. -/
theorem calcColWidths_below_floor (W : Int) (hW : W < 89) :
    calcColWidths W = ⟨13, 10, 8, 89⟩ ∧
    (calcColWidths W).total = 89 ∧ 0 < (calcColWidths W).name ∧
    0 < (calcColWidths W).created ∧ 0 < (calcColWidths W).user := by
  have hc : calcColWidths W = ⟨13, 10, 8, 89⟩ := by
    simp only [calcColWidths]
    rw [if_pos (show W < 59 + 12 + 10 + 8 by omega)]
    decide
  refine ⟨hc, ?_, ?_, ?_, ?_⟩ <;> rw [hc] <;> decide

/-- Claim C8 witness: the clamping behaviour evaluated at width -5. -/
theorem calcColWidths_below_floor_witness :
    calcColWidths (-5) = ⟨13, 10, 8, 89⟩ ∧
    (calcColWidths (-5)).total = 89 ∧ 0 < (calcColWidths (-5)).name ∧
    0 < (calcColWidths (-5)).created ∧ 0 < (calcColWidths (-5)).user :=
  calcColWidths_below_floor (-5) (by norm_num)

/-- Claim C4: for a positive cap the truncation keeps exactly the first
`min(N, matched count)` post-sort records (so never more than `N`, and
everything when at most `N` records exist); a cap of 0 truncates
nothing; and the snapshot published by a successful render cycle is
exactly this truncation of the sorted, filtered record list. -/
theorem truncateTopN_spec (n : Int) (l : List ProcessInfo) :
    (0 < n → truncateTopN n l = l.take (min n.toNat l.length) ∧
      (truncateTopN n l).length = min n.toNat l.length ∧
      ((l.length : Int) ≤ n → truncateTopN n l = l)) ∧
    truncateTopN 0 l = l ∧
    ∀ (cfg : Config) (st : DState) (raws : List RawProc),
      ((displayStep cfg (Except.ok raws) st).1).lastProcs =
        truncateTopN cfg.topN
          (sortProcesses cfg.sortKey cfg.desc
            (raws.filterMap (buildInfo cfg.pattern cfg.exactMatch))) := by
  refine ⟨?_, ?_, ?_⟩
  · intro hn
    unfold truncateTopN
    split_ifs with h
    · rw [min_eq_left (by omega)]
      refine ⟨rfl, ?_, ?_⟩
      · rw [List.length_take]; omega
      · intro hlen; omega
    · rw [min_eq_right (by omega), List.take_length]
      exact ⟨rfl, rfl, fun _ => rfl⟩
  · unfold truncateTopN
    simp
  · intro cfg st raws
    rfl

/-- Claim C4 witness: truncation with cap 2 on a three-record list. -/
theorem truncateTopN_spec_witness :
    truncateTopN 2 [procA, procB, procC] =
      [procA, procB, procC].take (min (2 : Int).toNat [procA, procB, procC].length) :=
  (((truncateTopN_spec 2 [procA, procB, procC]).1 (by norm_num)).1)

/-- Claim C5: `formatBytes` maps 0 to "0B", 1536 to "1.5K", 1048576 to
"1.0M" and 1073741824 to "1.0G"; and for every byte count it renders the
value in the largest unit among B/K/M/G (powers of 1024) in which the
value is at least 1, K/M/G values to one decimal place. -/
theorem formatBytes_spec :
    formatBytes 0 = "0B" ∧ formatBytes 1536 = "1.5K" ∧
    formatBytes 1048576 = "1.0M" ∧ formatBytes 1073741824 = "1.0G" ∧
    ∀ bytes : Nat, formatBytes bytes = specByteRender bytes := by
  refine ⟨by decide, by decide, by decide, by decide, ?_⟩
  intro bytes
  unfold formatBytes specByteRender specLargestUnit unitValue
  split_ifs <;> simp_all

/-- Claim C7 (counterexample): double-inversion sorting does not return
an arbitrary tie-free list to its original order.  With the default
descending direction, the list `[procA, procB]` (CPU 1% then 2%, no
ties) is carried by the flipped-then-restored double sort to
`[procB, procA]`, not back to itself. -/
theorem sortProcesses_roundTrip_fails_unsorted :
    sortProcesses "cpu" true (sortProcesses "cpu" false [procA, procB]) ≠
      [procA, procB] := by
  decide

/-- Claim C7 (amended): for every record list that is strictly ordered
by the sort key in the configured direction — which makes it tie-free
and in post-pipeline order — sorting with the direction flipped and then
sorting again with the direction restored returns the list unchanged. -/
theorem sortProcesses_roundTrip_sorted (k : String) (d : Bool) (l : List ProcessInfo)
    (h : l.Pairwise (fun a b => strictBefore k d a b = true)) :
    sortProcesses k d (sortProcesses k (!d) l) = l := by
  have H : ∀ a b : ProcessInfo,
      sortLe k d b a = true → strictBefore k d a b = true → False := by
    cases d <;> intro a b h1 h2
    · rw [sortLe_false_eq, Bool.not_eq_true'] at h1
      rw [show strictBefore k false a b = procLess k a b from rfl] at h2
      rw [h1] at h2
      exact Bool.false_ne_true h2
    · rw [sortLe_true_eq, Bool.not_eq_true'] at h1
      rw [show strictBefore k true a b = procLess k b a from rfl] at h2
      rw [h1] at h2
      exact Bool.false_ne_true h2
  have hperm : (sortProcesses k d (sortProcesses k (!d) l)).Perm l :=
    (sortModel_perm _ _).trans (sortModel_perm _ _)
  have hsorted := sortModel_pairwise (sortLe k d) (sortLe_total k d)
    (sortLe_trans k d) (sortProcesses k (!d) l)
  exact (perm_pairwise_eq H hperm.symm h hsorted).symm

/-- Claim C7 witness: the strictly descending CPU list `[procB, procA]`
survives the asc-then-desc double sort unchanged. -/
theorem sortProcesses_roundTrip_sorted_witness :
    sortProcesses "cpu" true (sortProcesses "cpu" (!true) [procB, procA]) =
      [procB, procA] :=
  sortProcesses_roundTrip_sorted "cpu" true [procB, procA] (by decide)

/-- Claim C10: every sort key outside cpu/mem/pid/name/time falls into
the `default` case of the comparator switch, so sorting with it orders
the records exactly as the "cpu" key does. -/
theorem sortProcesses_unknown_key (k : String) (d : Bool) (l : List ProcessInfo)
    (h1 : k ≠ "cpu") (h2 : k ≠ "mem") (h3 : k ≠ "pid") (h4 : k ≠ "name")
    (h5 : k ≠ "time") :
    sortProcesses k d l = sortProcesses "cpu" d l := by
  have hpl : procLess k = procLess "cpu" := by
    funext a b
    simp [procLess, h1, h2, h3, h4, h5]
  have hle : sortLe k d = sortLe "cpu" d := by
    funext a b
    simp only [sortLe, hpl]
  simp only [sortProcesses, hle]

/-- Claim C10 witness: the unrecognized key "uptime" sorts like "cpu". -/
theorem sortProcesses_unknown_key_witness :
    sortProcesses "uptime" true [procA, procB] =
      sortProcesses "cpu" true [procA, procB] :=
  sortProcesses_unknown_key "uptime" true [procA, procB]
    (by decide) (by decide) (by decide) (by decide) (by decide)

/-- Claim C2: the session machine pauses from Running and resumes from
Paused on the pause key; a quit key or termination signal moves any live
state to Terminating while running the teardown once; Terminating is
absorbing (every later event is a no-op); and over every event sequence
the teardown body executes at most once — exactly once as soon as some
quit or signal event occurs. -/
theorem session_machine_spec :
    (∀ s : SessionState, Running s → PausedState (stepSession SEvent.pauseKey s)) ∧
    (∀ s : SessionState, PausedState s → Running (stepSession SEvent.pauseKey s)) ∧
    (∀ (s : SessionState) (e : SEvent), (e = SEvent.quitKey ∨ e = SEvent.sigTerm) →
      ¬ Terminating s →
      Terminating (stepSession e s) ∧ (stepSession e s).teardowns = s.teardowns + 1) ∧
    (∀ (s : SessionState) (e : SEvent), Terminating s → stepSession e s = s) ∧
    (∀ evs : List SEvent, (runSession evs).teardowns ≤ 1) ∧
    (∀ evs : List SEvent, (∃ e ∈ evs, e = SEvent.quitKey ∨ e = SEvent.sigTerm) →
      (runSession evs).teardowns = 1) := by
  refine ⟨?_, ?_, ?_, ?_, ?_, ?_⟩
  · intro s hs
    simp [stepSession, PausedState, hs.1, hs.2]
  · intro s hs
    simp [stepSession, Running, hs.1, hs.2]
  · intro s e he hn
    have hx : s.exited = false := by
      simp only [Terminating] at hn
      exact Bool.not_eq_true _ ▸ hn
    rcases he with rfl | rfl <;> simp [stepSession, Terminating, hx]
  · intro s e h
    simp only [Terminating] at h
    simp [stepSession, h]
  · intro evs
    have h := foldSession_count_inv evs initSession (by simp [initSession])
    simp only [runSession]
    rw [h]
    split_ifs <;> norm_num
  · intro evs hex
    have h1 := foldSession_count_inv evs initSession (by simp [initSession])
    have h2 := foldSession_exited_of_mem evs initSession hex
    simp only [runSession]
    rw [h1, h2]
    simp

/-- Claim C2 witness: a quit key in the initial running state enters
Terminating and runs the teardown for the first time. -/
theorem session_machine_spec_witness :
    Terminating (stepSession SEvent.quitKey initSession) ∧
    (stepSession SEvent.quitKey initSession).teardowns = initSession.teardowns + 1 :=
  session_machine_spec.2.2.1 initSession SEvent.quitKey (Or.inl rfl)
    (by simp [Terminating, initSession])

/-- Claim C3: when the metric-source read fails, a render cycle prints
the inline `Error: ...` line, publishes no snapshot and leaves the
shared state (`lastProcs`) untouched; and the ticker loop goes on
processing the remaining ticks exactly as if the failed tick's state
change had been skipped. -/
theorem display_error_keeps_state (cfg : Config) (st : DState) (e : String) :
    displayStep cfg (Except.error e) st = (st, RenderOut.errorLine ("Error: " ++ e)) ∧
    ∀ rest : List (Except String (List RawProc)),
      runTicks cfg (Except.error e :: rest) st = runTicks cfg rest st := by
  exact ⟨rfl, fun rest => rfl⟩

/-- Claim C6: the title line picks the most detailed of the five
variants whose plain text fits the width (index 0 = full sentence …
4 = count-only fallback, emitted when nothing fits); in particular,
whenever the full sentence exceeds the width while the abbreviated form
still fits, the minimal count-only variant is not chosen. -/
theorem printHeader_degrades (es : Nat) (pattern intervalStr : String)
    (count : Nat) (w : Int) :
    headerChoice es pattern intervalStr count w =
      specHeaderChoice es pattern intervalStr count w ∧
    (fitsWidth (headerFull (formatElapsed es) (patDisplayOf pattern) intervalStr count) w
        = false →
     fitsWidth (headerAbbrev (formatElapsedShort es) (patDisplayOf pattern) count) w
        = true →
     headerChoice es pattern intervalStr count w ≠ 4) := by
  constructor
  · simp only [headerChoice, specHeaderChoice, headerVariants, List.findIdx_cons,
      List.findIdx_nil, Bool.cond_eq_ite]
    split_ifs <;> rfl
  · intro hf ha
    simp only [headerChoice, hf, ha]
    split_ifs <;> simp

/-- Claim C6 witness: at width 40 with pattern "x", elapsed 65 s,
interval "5.0" and 3 matches, the full sentence (68 bytes) overflows
while the abbreviated form (34 bytes) fits, and the choice is not the
minimal variant. -/
theorem printHeader_degrades_witness :
    headerChoice 65 "x" "5.0" 3 40 ≠ 4 :=
  (printHeader_degrades 65 "x" "5.0" 3 40).2 (by decide) (by decide)

/-- Claim C9: during collection a per-process read error never fails
the whole collection: a process whose name read fails is skipped
entirely; a process whose name passes the filter is kept even if every
other accessor fails, each failed field keeping its zero value (zero
time, 0 CPU, 0 RSS, 0 mem-percent, empty username, empty command line);
and the collection over any raw process list always succeeds. -/
theorem getProcesses_partial_failures (pattern : String) (ex : Bool) (p : RawProc) :
    (p.name = none → buildInfo pattern ex p = none) ∧
    (∀ n, p.name = some n → nameMatches pattern ex n = true →
      ∃ info, buildInfo pattern ex p = some info) ∧
    (∀ info, buildInfo pattern ex p = some info →
      info.PID = p.pid ∧
      (p.createTime = none → info.CreateTime = none) ∧
      (p.cpuPercent = none → info.CPUPercent = 0) ∧
      (p.memRSS = none → info.MemRSS = 0) ∧
      (p.memPercent = none → info.MemPercent = 0) ∧
      (p.username = none → info.Username = "") ∧
      (p.cmdline = none → info.CmdLine = "")) ∧
    (∀ raws : List RawProc, getProcesses (Except.ok raws) pattern ex =
      Except.ok (raws.filterMap (buildInfo pattern ex))) := by
  refine ⟨?_, ?_, ?_, fun raws => rfl⟩
  · intro h
    simp [buildInfo, h]
  · intro n hn hm
    simp [buildInfo, hn, hm]
  · intro info hinfo
    cases hn : p.name with
    | none => simp [buildInfo, hn] at hinfo
    | some n =>
      simp only [buildInfo, hn] at hinfo
      split at hinfo
      · have hrec := Option.some.inj hinfo
        subst hrec
        refine ⟨rfl, ?_, ?_, ?_, ?_, ?_, ?_⟩ <;> intro hc <;> simp [hc]
      · exact absurd hinfo (by simp)

/-- Claim C9 witness: a raw process whose every accessor except the
name fails is still collected. -/
theorem getProcesses_partial_failures_witness :
    ∃ info, buildInfo "" false rawNoFields = some info :=
  (getProcesses_partial_failures "" false rawNoFields).2.1 "svc" rfl (by decide)

end Watchproc
